import Mathlib

/-!
Shallow embedding of the distributed auction node (Go sources under
`node/`): the item-queue state machine, the 2PC bid path, the
Ricart–Agrawala mutual-exclusion handlers, the checkpoint round-trip and
the HTTP bid boundary.  Wall-clock time (`time.Now().Unix()`) is passed
explicitly as a `now : Int` argument; the per-node mutexes serialise every
operation in the source, so each Go method becomes a pure function from
the pre-state to the post-state.
-/

namespace DistAuction

/-- `AuctionItem` from state.go. -/
structure AuctionItem where
  id : String
  name : String
  description : String
  emoji : String
  startingPrice : Int
  durationSec : Int
deriving Repr, DecidableEq

/-- `ItemResult` from state.go. -/
structure ItemResult where
  item : AuctionItem
  winner : String
  winningBid : Int
deriving Repr, DecidableEq

/-- `ItemQueueState` from state.go (the mutex is the serialisation device,
not data). -/
structure ItemQueueState where
  queue : List AuctionItem
  currentItem : Option AuctionItem
  currentHighestBid : Int
  currentWinner : String
  deadlineUnix : Int
  active : Bool
  results : List ItemResult
deriving Repr, DecidableEq

/-- `BidArgs` from rpc.go. -/
structure BidArgs where
  amount : Int
  bidder : String
deriving Repr, DecidableEq

/-- `QueueSnapshot` from rpc.go. -/
structure QueueSnapshot where
  currentItem : Option AuctionItem
  currentHighestBid : Int
  currentWinner : String
  deadlineUnix : Int
  active : Bool
  queueLen : Nat
  remainingItems : List AuctionItem
  results : List ItemResult
deriving Repr, DecidableEq

/-- `defaultItems` from queue.go. -/
def defaultItems : List AuctionItem :=
  [ { id := "item-1", name := "Vintage Rolex Watch",
      description := "1962 Submariner, excellent condition", emoji := "⌚",
      startingPrice := 500, durationSec := 120 },
    { id := "item-2", name := "Oil Painting",
      description := "Original 18th-century landscape on canvas", emoji := "🖼️",
      startingPrice := 300, durationSec := 120 },
    { id := "item-3", name := "Limited Sneakers",
      description := "Nike Air Jordan 1 OG, DS size 10", emoji := "👟",
      startingPrice := 200, durationSec := 120 },
    { id := "item-4", name := "Gaming Laptop",
      description := "ASUS ROG, RTX 4090, 32GB RAM", emoji := "💻",
      startingPrice := 1000, durationSec := 120 },
    { id := "item-5", name := "Fender Guitar",
      description := "1965 Fender Stratocaster, sunburst finish", emoji := "🎸",
      startingPrice := 800, durationSec := 120 },
    { id := "item-6", name := "Rare Gold Coin",
      description := "1920 St. Gaudens Double Eagle, MS65", emoji := "🪙",
      startingPrice := 1500, durationSec := 120 } ]

/-- `antiSnipeWindow` from queue.go. -/
def antiSnipeWindow : Int := 15

/-- `freshQueue` from node.go: seed from `defaultItems`; the Go struct
zero values give `CurrentWinner = ""`, `DeadlineUnix = 0`, `Results = nil`. -/
def freshQueue : ItemQueueState :=
  match defaultItems with
  | [] => { queue := [], currentItem := none, currentHighestBid := 0,
            currentWinner := "", deadlineUnix := 0, active := true, results := [] }
  | first :: rest =>
      { queue := rest, currentItem := some first,
        currentHighestBid := first.startingPrice - 1,
        currentWinner := "", deadlineUnix := 0, active := true, results := [] }

/-- `canPrepareBid` from bid.go. -/
def canPrepareBid (now : Int) (s : ItemQueueState) (bid : BidArgs) : Bool :=
  s.active && s.currentItem.isSome &&
    decide (bid.amount > s.currentHighestBid) && decide (now < s.deadlineUnix)

/-- `maybeExtendDeadline` from queue.go. -/
def maybeExtendDeadline (now : Int) (s : ItemQueueState) : ItemQueueState :=
  if s.currentItem = none ∨ s.active = false then s
  else if s.deadlineUnix - now ≥ antiSnipeWindow then s
  else { s with deadlineUnix := now + antiSnipeWindow }

/-- `startNextItem` from queue.go (state transition only; broadcast,
checkpoint and timer spawn have no effect on the queue state). -/
def startNextItem (now : Int) (s : ItemQueueState) : ItemQueueState :=
  match s.queue with
  | [] => { s with currentItem := none, active := false, deadlineUnix := 0 }
  | next :: rest =>
      { s with queue := rest, currentItem := some next,
               currentHighestBid := next.startingPrice - 1,
               currentWinner := "",
               deadlineUnix := now + next.durationSec }

/-- `finalizeCurrentItemLocked` from queue.go. -/
def finalizeCurrentItem (s : ItemQueueState) : ItemQueueState :=
  match s.currentItem with
  | none => s
  | some item =>
      let r0 : ItemResult :=
        { item := item, winner := s.currentWinner, winningBid := s.currentHighestBid }
      let r := if r0.winningBid ≤ item.startingPrice - 1
               then { r0 with winner := "No bids", winningBid := 0 } else r0
      { s with results := s.results ++ [r], currentItem := none }

/-- `buildQueueSnapshot` from queue.go. -/
def buildQueueSnapshot (s : ItemQueueState) : QueueSnapshot :=
  { currentItem := s.currentItem,
    currentHighestBid := s.currentHighestBid,
    currentWinner := s.currentWinner,
    deadlineUnix := s.deadlineUnix,
    active := s.active,
    queueLen := s.queue.length,
    remainingItems := s.queue,
    results := s.results }

/-- `applyQueueSnapshot` from queue.go: field-for-field overwrite, except
`Results` is adopted only when the incoming list is strictly longer. -/
def applyQueueSnapshot (snap : QueueSnapshot) (s : ItemQueueState) : ItemQueueState :=
  { queue := snap.remainingItems,
    currentItem := snap.currentItem,
    currentHighestBid := snap.currentHighestBid,
    currentWinner := snap.currentWinner,
    deadlineUnix := snap.deadlineUnix,
    active := snap.active,
    results := if snap.results.length > s.results.length then snap.results else s.results }

/-- Result of a coordinator control operation: the `(bool, string)` return
pair of the Go method together with the mutated queue state. -/
structure OpResult where
  ok : Bool
  msg : String
  state : ItemQueueState
deriving Repr, DecidableEq

/-- `addItemAndBroadcast` from queue.go (queue mutation only). -/
def addItemAndBroadcast (name description : String) (startingPrice durationSec : Int)
    (s : ItemQueueState) : OpResult :=
  if name = "" ∨ description = "" ∨ startingPrice ≤ 0 ∨ durationSec ≤ 0 then
    { ok := false,
      msg := "name, description, starting price, and duration are required",
      state := s }
  else
    let newID := if s.currentItem = none then "item-1"
                 else "item-" ++ toString (s.queue.length + s.results.length + 2)
    let item : AuctionItem :=
      { id := newID, name := name, description := description, emoji := "",
        startingPrice := startingPrice, durationSec := durationSec }
    { ok := true, msg := "Item added to queue",
      state := { s with queue := s.queue ++ [item] } }

/-- `startAuctionAndBroadcast` from queue.go (queue mutation only). -/
def startAuctionAndBroadcast (now : Int) (s : ItemQueueState) : OpResult :=
  if s.active && s.currentItem.isSome && decide (s.deadlineUnix > now) then
    { ok := true, msg := "Auction already running", state := s }
  else
    match s.currentItem, s.queue with
    | none, [] =>
        { ok := false, msg := "No items available to start",
          state := { s with active := false } }
    | none, next :: rest =>
        let s1 := { s with queue := rest, currentItem := some next,
                           currentHighestBid := next.startingPrice - 1,
                           currentWinner := "" }
        { ok := true, msg := "Auction started",
          state := { s1 with active := true,
                             deadlineUnix := now + next.durationSec } }
    | some cur, _ =>
        { ok := true, msg := "Auction started",
          state := { s with active := true,
                            deadlineUnix := now + cur.durationSec } }

/-- `restartAuctionAndBroadcast` from queue.go: reseed from
`defaultItems`, clearing `Results`. -/
def restartAuctionAndBroadcast (now : Int) (s : ItemQueueState) : OpResult :=
  match defaultItems with
  | [] => { ok := true, msg := "Auction restarted", state := s }
  | first :: rest =>
      { ok := true, msg := "Auction restarted",
        state := { queue := rest, currentItem := some first,
                   currentHighestBid := first.startingPrice - 1,
                   currentWinner := "", results := [], active := true,
                   deadlineUnix := now + first.durationSec } }

/-- `LamportClock.Tick` from state.go, on the clock value. -/
def clockTick (t : Int) : Int := t + 1

/-- `LamportClock.Update` from state.go, on the clock value. -/
def clockUpdate (t received : Int) : Int :=
  (if received > t then received else t) + 1

/-- Pending-transaction table (`PendingTxns` map from node.go, keeping the
bid of each prepared-but-undecided transaction; `PreparedAt` only feeds the
TTL sweeper, which is time-based background work outside these claims). -/
def PendingTxns := List (String × BidArgs)

/-- `rememberPendingTxn` from bid.go. -/
def rememberPendingTxn (txns : List (String × BidArgs)) (txnID : String) (bid : BidArgs) :
    List (String × BidArgs) :=
  (txnID, bid) :: txns.filter (fun p => p.1 ≠ txnID)

/-- `applyDecision` from bid.go: resolve the pending bid (or fall back to
the one in the DECIDE message), delete the entry, and on commit apply the
bid to the queue state under the same validity rule. -/
def applyDecision (txns : List (String × BidArgs)) (txnID : String) (commit : Bool)
    (fallbackBid : BidArgs) (s : ItemQueueState) :
    (List (String × BidArgs)) × ItemQueueState :=
  let bid := match txns.lookup txnID with
             | some b => b
             | none => fallbackBid
  let txns1 := txns.filter (fun p => p.1 ≠ txnID)
  if commit = false then (txns1, s)
  else if s.active && s.currentItem.isSome && decide (bid.amount > s.currentHighestBid) then
    (txns1, { s with currentHighestBid := bid.amount, currentWinner := bid.bidder })
  else (txns1, s)

/-- The vote-collection loop of `ProposeBid` (bid.go): `votes` starts at 1
(the coordinator's own vote), `pending` at the peer count; `arrivals` are
the peer replies that arrive before the 2.5 s timer, in arrival order (the
timer expiry ends the list).  The loop exits as soon as the outcome is
determined: `votes ≥ quorum` or `votes + pending < quorum`. -/
def collectVotes (quorum : Nat) (votes pending : Nat) : List Bool → Nat
  | [] => votes
  | a :: rest =>
      if pending = 0 ∨ votes ≥ quorum ∨ votes + pending < quorum then votes
      else collectVotes quorum (if a then votes + 1 else votes) (pending - 1) rest

/-- The `(bool, string)` return of `ProposeBid` together with the
post-state. -/
structure ProposeOutcome where
  accepted : Bool
  message : String
  state : ItemQueueState
  txns : List (String × BidArgs)
deriving Repr, DecidableEq

/-- `ProposeBid` from bid.go as a state transformer.  `numPeers` is
`len(n.Peers)`, `arrivals` the peer votes received before the timeout.
The CS acquisition serialises the body, so the post-CS re-check sees the
same `now` and state in this sequential embedding; on commit the method
only broadcasts a snapshot — it performs no further state change. -/
def proposeBid (numPeers : Nat) (arrivals : List Bool) (now : Int) (txnID : String)
    (amount : Int) (bidder : String) (txns : List (String × BidArgs))
    (s : ItemQueueState) : ProposeOutcome :=
  let txnBid : BidArgs := { amount := amount, bidder := bidder }
  if canPrepareBid now s txnBid = false then
    { accepted := false,
      message := "Bid must be higher than current highest bid (or auction inactive)",
      state := s, txns := txns }
  else if canPrepareBid now s txnBid = false then
    { accepted := false, message := "Bid became stale during coordination",
      state := s, txns := txns }
  else
    let quorum := (numPeers + 1) / 2 + 1
    let txns1 := rememberPendingTxn txns txnID txnBid
    let votes := collectVotes quorum 1 numPeers arrivals
    let commit := decide (votes ≥ quorum)
    let step := applyDecision txns1 txnID commit txnBid s
    if commit then
      { accepted := true, message := "Bid committed by quorum",
        state := step.2, txns := step.1 }
    else
      { accepted := false,
        message := "Bid aborted: quorum not reached (" ++ toString votes ++ "/"
                     ++ toString quorum ++ ")",
        state := step.2, txns := step.1 }

/-- `CheckpointData` from checkpoint.go. -/
structure CheckpointData where
  nodeId : String
  lamportTime : Int
  currentItem : Option AuctionItem
  remainingQueue : List AuctionItem
  results : List ItemResult
  currentHighestBid : Int
  currentWinner : String
  deadlineUnix : Int
  active : Bool
  checkpointTime : Int
  lamportStamp : Int
deriving Repr, DecidableEq

/-- `takeLocalCheckpoint` from checkpoint.go: both `LamportTime` and
`LamportStamp` read the same serialised clock (`Clock.Get()`), passed here
as `clockTime`; the slice copies are value-equal to the source lists. -/
def takeLocalCheckpoint (nodeID : String) (clockTime now : Int) (s : ItemQueueState) :
    CheckpointData :=
  { nodeId := nodeID,
    lamportTime := clockTime,
    lamportStamp := clockTime,
    currentHighestBid := s.currentHighestBid,
    currentWinner := s.currentWinner,
    deadlineUnix := s.deadlineUnix,
    active := s.active,
    results := s.results,
    remainingQueue := s.queue,
    checkpointTime := now,
    currentItem := s.currentItem }

/-- The restore branch of `NewNode` (node.go): queue state initialised
from a loaded checkpoint. -/
def restoreQueueFromCheckpoint (cp : CheckpointData) : ItemQueueState :=
  { currentItem := cp.currentItem,
    queue := cp.remainingQueue,
    results := cp.results,
    currentHighestBid := cp.currentHighestBid,
    currentWinner := cp.currentWinner,
    deadlineUnix := cp.deadlineUnix,
    active := cp.active }

/-- `RAMessage` from ra.go. -/
structure RAMessage where
  timestamp : Int
  nodeID : String
deriving Repr, DecidableEq

/-- The per-node Ricart–Agrawala state touched by `ReceiveRequest` and
`ReleaseCS` (`RAManager` from ra.go; the reply channel and counter belong
to the requester side). -/
structure RAState where
  nodeID : String
  clock : Int
  requestTime : Int
  requestingCS : Bool
  deferredReply : List String
deriving Repr, DecidableEq

/-- `ReceiveRequest` from ra.go: update the Lamport clock with the request
timestamp, then either defer (queue the sender, reply `false`) or reply
YES immediately (`true`). -/
def receiveRequest (ra : RAState) (req : RAMessage) : Bool × RAState :=
  let clock1 := clockUpdate ra.clock req.timestamp
  let deferTheReply :=
    ra.requestingCS &&
      (decide (ra.requestTime < req.timestamp) ||
        (decide (ra.requestTime = req.timestamp) && decide (ra.nodeID < req.nodeID)))
  if deferTheReply then
    (false, { ra with clock := clock1,
                      deferredReply := ra.deferredReply ++ [req.nodeID] })
  else
    (true, { ra with clock := clock1 })

/-- `ReleaseCS` from ra.go: clear `requesting`, drain the deferred queue
and return the ids that get a deferred reply. -/
def releaseCS (ra : RAState) : List String × RAState :=
  (ra.deferredReply, { ra with requestingCS := false, deferredReply := [] })

/-- Semantics of Go `fmt.Sscanf(s, "%d", &amount)`: skip leading
whitespace, read an optional sign and at least one decimal digit, ignore
the remaining input; `none` exactly when no integer can be read. -/
def scanGoInt (s : String) : Option Int :=
  let cs := s.data.dropWhile Char.isWhitespace
  let signedTail : Bool × List Char :=
    match cs with
    | '-' :: rest => (true, rest)
    | '+' :: rest => (false, rest)
    | _ => (false, cs)
  let digits := signedTail.2.takeWhile Char.isDigit
  if digits = [] then none
  else
    let v : Nat := digits.foldl (fun acc c => acc * 10 + (c.toNat - 48)) 0
    some (if signedTail.1 then -(v : Int) else (v : Int))

/-- Observable outcome of `handleBidRequest` at the protocol boundary:
either a 400 rejection, or the `BidArgs` that are handed to the protocol
(forwarded via `SubmitBidToCoordinator`, or run through `ProposeBid`
locally). -/
inductive BidBoundary where
  | reject400 : String → BidBoundary
  | forward : BidArgs → BidBoundary
deriving Repr, DecidableEq

/-- `handleBidRequest` from handlers.go, up to the point the bid enters
the protocol: substitute the node's own id for an empty bidder field, then
require the amount to scan as a positive integer. -/
def handleBidRequest (amountStr bidderField nodeID : String) : BidBoundary :=
  let bidder := if bidderField = "" then nodeID else bidderField
  match scanGoInt amountStr with
  | none => .reject400 "Invalid bid amount"
  | some amount =>
      if amount ≤ 0 then .reject400 "Invalid bid amount"
      else .forward { amount := amount, bidder := bidder }

/-- A sample completed-item record, used by concrete evaluations. -/
def sampleResult : ItemResult :=
  { item := { id := "item-0", name := "Teapot", description := "Ceramic teapot",
              emoji := "", startingPrice := 50, durationSec := 60 },
    winner := "alice", winningBid := 75 }

/-- A node state with one finished item on record, used by concrete
evaluations. -/
def recordedState : ItemQueueState :=
  { queue := [], currentItem := none, currentHighestBid := 75,
    currentWinner := "alice", deadlineUnix := 0, active := false,
    results := [sampleResult] }

/-- A node state mid-auction with the deadline 14 seconds after wall
clock 500, used by concrete evaluations. -/
def midAuctionState : ItemQueueState :=
  { queue := [],
    currentItem := some { id := "item-9", name := "Clock", description := "Mantel clock",
                          emoji := "", startingPrice := 100, durationSec := 120 },
    currentHighestBid := 120, currentWinner := "bob", deadlineUnix := 514,
    active := true, results := [] }

/-- A drained node state: queue empty, no current item, inactive. -/
def drainedState : ItemQueueState :=
  { queue := [], currentItem := none, currentHighestBid := 0,
    currentWinner := "", deadlineUnix := 0, active := false, results := [] }

/-- String concatenation is associative (via `String.ext` on the data). -/
theorem string_append_assoc (a b c : String) : a ++ b ++ c = a ++ (b ++ c) :=
  String.ext (by simp [String.data_append, List.append_assoc])

/-- C1: `canPrepareBid` holds iff `active`, `currentItem` non-empty,
`amount > currentHighestBid` and `now < deadlineUnix`; in particular a bid
equal to `currentHighestBid` is rejected, and a bid at the instant
`now = deadlineUnix` is rejected. -/
theorem canPrepareBid_spec :
    (∀ (now : Int) (s : ItemQueueState) (bid : BidArgs),
        canPrepareBid now s bid = true ↔
          (s.active = true ∧ s.currentItem ≠ none ∧
            s.currentHighestBid < bid.amount ∧ now < s.deadlineUnix)) ∧
    (∀ (now : Int) (s : ItemQueueState) (b : String),
        canPrepareBid now s { amount := s.currentHighestBid, bidder := b } = false) ∧
    (∀ (s : ItemQueueState) (bid : BidArgs),
        canPrepareBid s.deadlineUnix s bid = false) := by
  refine ⟨fun now s bid => ?_, fun now s b => ?_, fun s bid => ?_⟩
  · simp [canPrepareBid, Bool.and_eq_true, decide_eq_true_iff,
      Option.isSome_iff_ne_none, and_assoc, gt_iff_lt]
  · simp [canPrepareBid]
  · simp [canPrepareBid]

/-- C7: applying a SYNC snapshot overwrites every replicated field from
the snapshot, adopts the incoming `results` exactly when it is strictly
longer, and is idempotent. -/
theorem applyQueueSnapshot_spec (snap : QueueSnapshot) (s : ItemQueueState) :
    (applyQueueSnapshot snap s).currentItem = snap.currentItem ∧
    (applyQueueSnapshot snap s).currentHighestBid = snap.currentHighestBid ∧
    (applyQueueSnapshot snap s).currentWinner = snap.currentWinner ∧
    (applyQueueSnapshot snap s).deadlineUnix = snap.deadlineUnix ∧
    (applyQueueSnapshot snap s).active = snap.active ∧
    (applyQueueSnapshot snap s).queue = snap.remainingItems ∧
    (applyQueueSnapshot snap s).results =
      (if snap.results.length > s.results.length then snap.results else s.results) ∧
    applyQueueSnapshot snap (applyQueueSnapshot snap s) = applyQueueSnapshot snap s := by
  refine ⟨rfl, rfl, rfl, rfl, rfl, rfl, rfl, ?_⟩
  simp only [applyQueueSnapshot]
  split
  · simp
  · rfl

/-- C8: restoring the checkpoint written by `takeLocalCheckpoint` yields
back the queue state on every replicated field, and the restored Lamport
clock (`Update` on any prior clock value) is at least the recorded
`lamportTime`. -/
theorem checkpoint_restore_roundtrip (nodeID : String) (clockTime now : Int)
    (s : ItemQueueState) :
    restoreQueueFromCheckpoint (takeLocalCheckpoint nodeID clockTime now s) = s ∧
    (takeLocalCheckpoint nodeID clockTime now s).lamportTime = clockTime ∧
    (∀ c : Int,
      (takeLocalCheckpoint nodeID clockTime now s).lamportTime ≤
        clockUpdate c (takeLocalCheckpoint nodeID clockTime now s).lamportTime) := by
  refine ⟨by cases s; rfl, rfl, fun c => ?_⟩
  simp only [takeLocalCheckpoint, clockUpdate]
  split <;> omega

/-- C9: on a Ricart–Agrawala REQUEST the receiver updates its Lamport
clock with the request timestamp, defers exactly when it is requesting
and `(requestTime, myId)` precedes `(ts, from)` under the source's
tie-break, queues the deferred id, and `ReleaseCS` answers every queued
id while clearing the queue and the requesting flag. -/
theorem receiveRequest_spec (ra : RAState) (req : RAMessage) :
    ((receiveRequest ra req).1 = false ↔
        (ra.requestingCS = true ∧
          (ra.requestTime < req.timestamp ∨
            (ra.requestTime = req.timestamp ∧ ra.nodeID < req.nodeID)))) ∧
    (receiveRequest ra req).2.clock = clockUpdate ra.clock req.timestamp ∧
    (receiveRequest ra req).2.deferredReply =
      (if (receiveRequest ra req).1 = false
       then ra.deferredReply ++ [req.nodeID] else ra.deferredReply) ∧
    (releaseCS (receiveRequest ra req).2).1 = (receiveRequest ra req).2.deferredReply ∧
    (releaseCS (receiveRequest ra req).2).2.requestingCS = false ∧
    (releaseCS (receiveRequest ra req).2).2.deferredReply = [] := by
  have hiff : (ra.requestingCS &&
      (decide (ra.requestTime < req.timestamp) ||
        (decide (ra.requestTime = req.timestamp) && decide (ra.nodeID < req.nodeID)))) = true ↔
      (ra.requestingCS = true ∧
        (ra.requestTime < req.timestamp ∨
          (ra.requestTime = req.timestamp ∧ ra.nodeID < req.nodeID))) := by
    simp only [Bool.and_eq_true, Bool.or_eq_true, decide_eq_true_eq]
  simp only [receiveRequest, releaseCS]
  split
  case isTrue hcond =>
    refine ⟨⟨fun _ => hiff.mp hcond, fun _ => rfl⟩, ?_, ?_, ?_, ?_, ?_⟩ <;> simp
  case isFalse hcond =>
    refine ⟨⟨fun habs => absurd habs (by simp), fun hr => absurd (hiff.mpr hr) hcond⟩,
      ?_, ?_, ?_, ?_, ?_⟩ <;> simp

/-- C2 counterexample: restarting the auction wipes the results ledger —
`restartAuctionAndBroadcast` reseeds from `defaultItems` and sets
`Results = nil`, so an existing entry is removed and the length
decreases. -/
theorem restart_clears_results :
    recordedState.results ≠ [] ∧
    (restartAuctionAndBroadcast 1000 recordedState).state.results = [] ∧
    (restartAuctionAndBroadcast 1000 recordedState).state.results.length <
      recordedState.results.length := by
  refine ⟨by decide, rfl, by decide⟩

/-- C2 (amended): every listed operation except auction restart only
appends to `results` (bid commit and abort leave it untouched, finalize
appends one entry, snapshot apply never shortens it, item start / add /
auction start leave it untouched, checkpoint restore reproduces it), while
auction restart resets `results` to the empty list. -/
theorem results_append_only_except_restart :
    (∀ (txns : List (String × BidArgs)) (txnID : String) (commit : Bool)
        (bid : BidArgs) (s : ItemQueueState),
        (applyDecision txns txnID commit bid s).2.results = s.results) ∧
    (∀ s : ItemQueueState, ∃ tail, (finalizeCurrentItem s).results = s.results ++ tail) ∧
    (∀ (snap : QueueSnapshot) (s : ItemQueueState),
        s.results.length ≤ (applyQueueSnapshot snap s).results.length) ∧
    (∀ (now : Int) (s : ItemQueueState), (startNextItem now s).results = s.results) ∧
    (∀ (name description : String) (sp ds : Int) (s : ItemQueueState),
        (addItemAndBroadcast name description sp ds s).state.results = s.results) ∧
    (∀ (now : Int) (s : ItemQueueState),
        (startAuctionAndBroadcast now s).state.results = s.results) ∧
    (∀ cp : CheckpointData, (restoreQueueFromCheckpoint cp).results = cp.results) ∧
    (∀ (now : Int) (s : ItemQueueState),
        (restartAuctionAndBroadcast now s).state.results = []) := by
  refine ⟨?_, ?_, ?_, ?_, ?_, ?_, fun cp => rfl, fun now s => rfl⟩
  · intro txns txnID commit bid s
    simp only [applyDecision]
    split
    · rfl
    · split <;> rfl
  · intro s
    cases h : s.currentItem
    · exact ⟨[], by simp [finalizeCurrentItem, h]⟩
    · simp only [finalizeCurrentItem, h]
      exact ⟨_, rfl⟩
  · intro snap s
    simp only [applyQueueSnapshot]
    split
    · exact Nat.le_of_lt (by assumption)
    · exact Nat.le_refl _
  · intro now s
    cases hq : s.queue <;> simp [startNextItem, hq]
  · intro name description sp ds s
    simp only [addItemAndBroadcast]
    split <;> rfl
  · intro now s
    simp only [startAuctionAndBroadcast]
    split
    · rfl
    · split <;> rfl

/-- C3: the commit path of `ProposeBid` never extends the deadline —
at wall clock 500 with the deadline at 514 (inside the 15 s anti-snipe
window) a committed bid leaves `deadlineUnix` at 514, even though
`maybeExtendDeadline` (which has no caller in the source) would have moved
it to `now + antiSnipeWindow = 515`. -/
theorem commit_in_snipe_window_leaves_deadline :
    midAuctionState.deadlineUnix - 500 < antiSnipeWindow ∧
    (proposeBid 3 [true, true, true] 500 "Node1-1" 130 "carol" [] midAuctionState).accepted
      = true ∧
    (proposeBid 3 [true, true, true] 500 "Node1-1" 130 "carol" [] midAuctionState).state.deadlineUnix
      = midAuctionState.deadlineUnix ∧
    (maybeExtendDeadline 500
        (proposeBid 3 [true, true, true] 500 "Node1-1" 130 "carol" [] midAuctionState).state).deadlineUnix
      = 500 + antiSnipeWindow := by
  decide

/-- C4: with N peers, `ProposeBid` uses `quorum = (N+1)/2 + 1` counting
its own vote as 1; whenever the collected YES votes end below quorum the
bid is rejected with a message starting "Bid aborted: quorum not reached"
and the queue state — in particular `currentHighestBid` and
`currentWinner` — is unchanged. -/
theorem proposeBid_quorum_abort (numPeers : Nat) (arrivals : List Bool) (now : Int)
    (txnID : String) (amount : Int) (bidder : String)
    (txns : List (String × BidArgs)) (s : ItemQueueState)
    (hready : canPrepareBid now s { amount := amount, bidder := bidder } = true)
    (hvotes : collectVotes ((numPeers + 1) / 2 + 1) 1 numPeers arrivals
        < (numPeers + 1) / 2 + 1) :
    (proposeBid numPeers arrivals now txnID amount bidder txns s).accepted = false ∧
    (∃ rest, (proposeBid numPeers arrivals now txnID amount bidder txns s).message
        = "Bid aborted: quorum not reached" ++ rest) ∧
    (proposeBid numPeers arrivals now txnID amount bidder txns s).state = s ∧
    (proposeBid numPeers arrivals now txnID amount bidder txns s).state.currentHighestBid
      = s.currentHighestBid ∧
    (proposeBid numPeers arrivals now txnID amount bidder txns s).state.currentWinner
      = s.currentWinner := by
  have hc : (decide (collectVotes ((numPeers + 1) / 2 + 1) 1 numPeers arrivals
      ≥ (numPeers + 1) / 2 + 1)) = false := decide_eq_false (by omega)
  simp only [proposeBid, hready, hc, applyDecision, Bool.true_eq_false, if_false,
    Bool.false_eq_true, decide_True, decide_False]
  refine ⟨by trivial, ?_, by trivial, by trivial, by trivial⟩
  refine ⟨" (" ++ (toString (collectVotes ((numPeers + 1) / 2 + 1) 1 numPeers arrivals)
      ++ ("/" ++ (toString ((numPeers + 1) / 2 + 1) ++ ")"))), ?_⟩
  rw [show ("Bid aborted: quorum not reached (" : String)
        = "Bid aborted: quorum not reached" ++ " (" from rfl]
  simp only [string_append_assoc]

/-- Witness for `proposeBid_quorum_abort`: three peers, all replies NO, so
votes end at 1 < 3 and the 130 bid on `midAuctionState` aborts. -/
theorem proposeBid_quorum_abort_witness :
    canPrepareBid 500 midAuctionState { amount := 130, bidder := "dave" } = true ∧
    ((proposeBid 3 [false, false, false] 500 "Node2-7" 130 "dave" [] midAuctionState).accepted
        = false ∧
      (∃ rest, (proposeBid 3 [false, false, false] 500 "Node2-7" 130 "dave" [] midAuctionState).message
          = "Bid aborted: quorum not reached" ++ rest) ∧
      (proposeBid 3 [false, false, false] 500 "Node2-7" 130 "dave" [] midAuctionState).state
        = midAuctionState ∧
      (proposeBid 3 [false, false, false] 500 "Node2-7" 130 "dave" [] midAuctionState).state.currentHighestBid
        = midAuctionState.currentHighestBid ∧
      (proposeBid 3 [false, false, false] 500 "Node2-7" 130 "dave" [] midAuctionState).state.currentWinner
        = midAuctionState.currentWinner) :=
  ⟨by decide,
    proposeBid_quorum_abort 3 [false, false, false] 500 "Node2-7" 130 "dave" []
      midAuctionState (by decide) (by decide)⟩

/-- C5 counterexample: the freshly seeded initial state (`freshQueue`,
used when no checkpoint exists) has a non-empty `currentItem` and is
active, yet its `deadlineUnix` is the Go zero value 0 — so
"`currentItem` non-empty ⇒ `deadlineUnix` > 0" fails at the initial
state. -/
theorem freshQueue_violates_I1 :
    freshQueue.currentItem ≠ none ∧ freshQueue.active = true ∧
    freshQueue.deadlineUnix = 0 :=
  ⟨by decide, rfl, rfl⟩

/-- C5 (amended): a non-empty `currentItem` implies `active` in the
seeded initial state, and whenever the coordinator opens an item through
`startNextItem` (positive wall clock, positive item durations, active
pre-state) the resulting open state has `deadlineUnix > 0` and `active`;
the seeded initial state itself keeps `deadlineUnix = 0` until a
coordinator sets a deadline. -/
theorem item_open_invariant (now : Int) (s : ItemQueueState)
    (hnow : 0 < now)
    (hdur : ∀ it ∈ s.queue, 0 < it.durationSec)
    (hact : s.active = true) :
    (freshQueue.currentItem ≠ none ∧ freshQueue.active = true) ∧
    ((startNextItem now s).currentItem ≠ none →
      0 < (startNextItem now s).deadlineUnix ∧ (startNextItem now s).active = true) := by
  refine ⟨⟨by decide, rfl⟩, ?_⟩
  cases hq : s.queue with
  | nil => simp [startNextItem, hq]
  | cons a rest =>
      intro _
      have ha : 0 < a.durationSec := hdur a (by rw [hq]; exact List.mem_cons_self a rest)
      refine ⟨?_, ?_⟩
      · simp only [startNextItem, hq]
        omega
      · simp only [startNextItem, hq]
        exact hact

/-- Witness for `item_open_invariant`: open the next item of the seeded
queue at wall clock 1000. -/
theorem item_open_invariant_witness :
    (0 : Int) < 1000 ∧ freshQueue.active = true ∧
    ((freshQueue.currentItem ≠ none ∧ freshQueue.active = true) ∧
      ((startNextItem 1000 freshQueue).currentItem ≠ none →
        0 < (startNextItem 1000 freshQueue).deadlineUnix ∧
        (startNextItem 1000 freshQueue).active = true)) :=
  ⟨by decide, rfl, item_open_invariant 1000 freshQueue (by decide) (by decide) rfl⟩

/-- C6 counterexample: adding an item to a drained node
(`active = false`, empty queue) leaves `active = false` while the queue
becomes non-empty — `addItemAndBroadcast` never touches `Active`, so
"`active = false` ⇒ queue empty" is not preserved by addItem. -/
theorem addItem_breaks_I4 :
    drainedState.active = false ∧ drainedState.queue = [] ∧
    drainedState.currentItem = none ∧
    (addItemAndBroadcast "Lamp" "Brass desk lamp" 40 60 drainedState).state.active = false ∧
    (addItemAndBroadcast "Lamp" "Brass desk lamp" 40 60 drainedState).state.queue ≠ [] := by
  decide

/-- C6 (amended): `addItemAndBroadcast` changes neither `active` nor
`currentItem`, so the "`active = false` ⇒ `currentItem` empty" half of
the invariant is preserved; `startNextItem` on an empty queue
re-establishes the full invariant (`active = false`, empty queue, no
current item); but addItem on a drained node yields an inactive state
with a non-empty queue. -/
theorem inactive_invariant_addItem (name description : String) (sp ds now : Int)
    (s : ItemQueueState) (hq : s.queue = []) :
    ((addItemAndBroadcast name description sp ds s).state.active = s.active ∧
      (addItemAndBroadcast name description sp ds s).state.currentItem = s.currentItem) ∧
    ((startNextItem now s).active = false ∧ (startNextItem now s).queue = [] ∧
      (startNextItem now s).currentItem = none) := by
  constructor
  · simp only [addItemAndBroadcast]
    split <;> exact ⟨rfl, rfl⟩
  · simp [startNextItem, hq]

/-- Witness for `inactive_invariant_addItem` at the drained state. -/
theorem inactive_invariant_addItem_witness :
    drainedState.queue = [] ∧
    (((addItemAndBroadcast "Lamp" "Brass desk lamp" 40 60 drainedState).state.active
          = drainedState.active ∧
        (addItemAndBroadcast "Lamp" "Brass desk lamp" 40 60 drainedState).state.currentItem
          = drainedState.currentItem) ∧
      ((startNextItem 100 drainedState).active = false ∧
        (startNextItem 100 drainedState).queue = [] ∧
        (startNextItem 100 drainedState).currentItem = none)) :=
  ⟨rfl, inactive_invariant_addItem "Lamp" "Brass desk lamp" 40 60 100 drainedState rfl⟩

/-- C10: at the POST /bid boundary an empty bidder field is replaced by
the node's own id before the bid is handed to the protocol, and the
amount must scan (Go `fmt.Sscanf "%d"`) as a positive integer — otherwise
the request is rejected with 400 and no bid enters the protocol. -/
theorem handleBidRequest_boundary (amountStr bidderField nodeID : String) :
    (∀ b, handleBidRequest amountStr bidderField nodeID = .forward b →
        b.bidder = (if bidderField = "" then nodeID else bidderField) ∧
        0 < b.amount ∧ scanGoInt amountStr = some b.amount) ∧
    (scanGoInt amountStr = none →
        handleBidRequest amountStr bidderField nodeID = .reject400 "Invalid bid amount") ∧
    (∀ v, scanGoInt amountStr = some v → v ≤ 0 →
        handleBidRequest amountStr bidderField nodeID = .reject400 "Invalid bid amount") := by
  refine ⟨?_, ?_, ?_⟩
  · intro b hb
    cases hp : scanGoInt amountStr with
    | none => simp [handleBidRequest, hp] at hb
    | some v =>
        by_cases hv : v ≤ 0
        · simp [handleBidRequest, hp, hv] at hb
        · simp only [handleBidRequest, hp] at hb
          rw [if_neg hv] at hb
          cases hb
          refine ⟨rfl, ?_, rfl⟩
          show (0 : Int) < v
          omega
  · intro hp
    simp [handleBidRequest, hp]
  · intro v hp hv
    simp only [handleBidRequest, hp]
    rw [if_pos hv]

/-- Witness for `handleBidRequest_boundary`: "12" with empty bidder is
forwarded under the node's own id; "abc" and "-3" are rejected. -/
theorem handleBidRequest_boundary_witness :
    ((BidArgs.mk 12 "Node1").bidder = (if "" = "" then "Node1" else "") ∧
      (0 : Int) < (BidArgs.mk 12 "Node1").amount ∧
      scanGoInt "12" = some (BidArgs.mk 12 "Node1").amount) ∧
    handleBidRequest "abc" "x" "Node1" = .reject400 "Invalid bid amount" ∧
    handleBidRequest "-3" "y" "Node1" = .reject400 "Invalid bid amount" :=
  ⟨(handleBidRequest_boundary "12" "" "Node1").1 (BidArgs.mk 12 "Node1") (by decide),
    (handleBidRequest_boundary "abc" "x" "Node1").2.1 (by decide),
    (handleBidRequest_boundary "-3" "y" "Node1").2.2 (-3) (by decide) (by decide)⟩

end DistAuction
